import Mathlib

/-!
# Verification of the Shop_Assistant chatbot core

A shallow embedding of the conversational engine of the Shop_Assistant
repository (`app/services/chatbot_service.py`, `app/services/product_service.py`,
`app/utils/groq_client.py`).

Modelling conventions:
* A Python `str` is modelled as `List Nat` of Unicode code points (`PyStr`).
* Python `float` is modelled as `ℚ`; `round(x, 2)` is round-half-even to two
  decimals (`rnd2`), matching CPython's rounding of exactly representable values.
* The two I/O collaborators are inputs: the catalog snapshot is a
  `List Product` (an empty list models "unavailable or empty"), and the Groq
  network is an oracle `PyStr → Option PyStr` giving, per prompt, the parsed
  message content of the first successful HTTP attempt (`none` = every retry
  raised).
* All functions are total: the Lean model of `generate_chat_response` returning
  a value for every input is the counterpart of "never raises".
-/

abbrev PyStr := List Nat

/-- Code points of a Lean string literal (used to transcribe the Python literals). -/
def pystr (s : String) : PyStr := s.data.map Char.toNat

/-- ASCII lowercasing of one code point, as `str.lower` acts on ASCII letters. -/
def lowerCp (n : Nat) : Nat := if 65 ≤ n ∧ n ≤ 90 then n + 32 else n

/-- ASCII uppercasing of one code point (for `str.capitalize`). -/
def upperCp (n : Nat) : Nat := if 97 ≤ n ∧ n ≤ 122 then n - 32 else n

/-- `str.lower()`. -/
def pyLower (s : PyStr) : PyStr := s.map lowerCp

/-- ASCII whitespace, the characters `str.strip()` / `str.split()` treat as blank. -/
def isSpaceCp (n : Nat) : Bool := n == 32 || n == 9 || n == 10 || n == 11 || n == 12 || n == 13

def trimEnd (s : PyStr) : PyStr := (s.reverse.dropWhile isSpaceCp).reverse

/-- `str.strip()`. -/
def pyStrip (s : PyStr) : PyStr := trimEnd (s.dropWhile isSpaceCp)

/-- Python's substring test `needle in hay`. -/
def pyIn (needle : PyStr) : PyStr → Bool
  | [] => needle.isEmpty
  | c :: t => needle.isPrefixOf (c :: t) || pyIn needle t

/-- `s.endswith(pat)`. -/
def pyEndsWith (s pat : PyStr) : Bool := pat.reverse.isPrefixOf s.reverse

/-- `s.startswith(pat)`. -/
def pyStartsWith (s pat : PyStr) : Bool := pat.isPrefixOf s

/-- Python's `x or d` idiom on strings: `None` and `""` fall back to `d`. -/
def pyOrStr (o : Option PyStr) (d : PyStr) : PyStr :=
  match o with
  | some s => if s = [] then d else s
  | none => d

/-!
Kernel-executable rational arithmetic.  The `Rat.add/sub/mul/div` operations of
the ambient library are `irreducible`, which blocks `decide` on concrete
values; the `q·` forms below are reducible implementations via `Rat.divInt`,
each proved equal to the corresponding field operation on `ℚ`.
-/

def qofInt (n : ℤ) : ℚ := Rat.divInt n 1

def qadd (a b : ℚ) : ℚ := Rat.divInt (a.num * b.den + b.num * a.den) (a.den * b.den)

def qsub (a b : ℚ) : ℚ := Rat.divInt (a.num * b.den - b.num * a.den) (a.den * b.den)

def qmul (a b : ℚ) : ℚ := Rat.divInt (a.num * b.num) (a.den * b.den)

def qdiv (a b : ℚ) : ℚ := Rat.divInt (a.num * b.den) (a.den * b.num)

theorem qofInt_eq (n : ℤ) : qofInt n = (n : ℚ) := by
  unfold qofInt
  rw [Rat.divInt_eq_div]
  norm_num

theorem qadd_eq (a b : ℚ) : qadd a b = a + b := by
  unfold qadd
  rw [Rat.divInt_eq_div]
  have ha : ((a.den : ℤ) : ℚ) ≠ 0 := by exact_mod_cast a.den_ne_zero
  have hb : ((b.den : ℤ) : ℚ) ≠ 0 := by exact_mod_cast b.den_ne_zero
  conv_rhs => rw [← Rat.num_div_den a, ← Rat.num_div_den b]
  push_cast
  field_simp

theorem qsub_eq (a b : ℚ) : qsub a b = a - b := by
  unfold qsub
  rw [Rat.divInt_eq_div]
  have ha : ((a.den : ℤ) : ℚ) ≠ 0 := by exact_mod_cast a.den_ne_zero
  have hb : ((b.den : ℤ) : ℚ) ≠ 0 := by exact_mod_cast b.den_ne_zero
  conv_rhs => rw [← Rat.num_div_den a, ← Rat.num_div_den b]
  push_cast
  field_simp
  ring

theorem qmul_eq (a b : ℚ) : qmul a b = a * b := by
  unfold qmul
  rw [Rat.divInt_eq_div]
  have ha : ((a.den : ℤ) : ℚ) ≠ 0 := by exact_mod_cast a.den_ne_zero
  have hb : ((b.den : ℤ) : ℚ) ≠ 0 := by exact_mod_cast b.den_ne_zero
  conv_rhs => rw [← Rat.num_div_den a, ← Rat.num_div_den b]
  push_cast
  field_simp

theorem qdiv_eq (a b : ℚ) : qdiv a b = a / b := by
  rcases eq_or_ne b 0 with hb0 | hb0
  · subst hb0
    unfold qdiv
    norm_num
  · unfold qdiv
    rw [Rat.divInt_eq_div]
    have ha : ((a.den : ℤ) : ℚ) ≠ 0 := by exact_mod_cast a.den_ne_zero
    have hb : ((b.den : ℤ) : ℚ) ≠ 0 := by exact_mod_cast b.den_ne_zero
    have hbn : ((b.num : ℤ) : ℚ) ≠ 0 := by
      exact_mod_cast Rat.num_ne_zero.mpr hb0
    conv_rhs => rw [← Rat.num_div_den a, ← Rat.num_div_den b]
    push_cast
    field_simp

/-- Floor of a rational, in executable form. -/
def qfloor (x : ℚ) : ℤ := x.num / (x.den : ℤ)

theorem qfloor_eq (x : ℚ) : qfloor x = ⌊x⌋ := Rat.floor_def.symm

/-- Round half to even, the rounding mode of Python's `round` and `format`. -/
def rhe (x : ℚ) : ℤ :=
  if qsub x (qofInt (qfloor x)) < Rat.divInt 1 2 then qfloor x
  else if Rat.divInt 1 2 < qsub x (qofInt (qfloor x)) then qfloor x + 1
  else if qfloor x % 2 = 0 then qfloor x else qfloor x + 1

theorem qhalf_eq : Rat.divInt 1 2 = (1 : ℚ)/2 := by
  rw [Rat.divInt_eq_div]
  norm_num

/-- Python `round(x, 2)`. -/
def rnd2 (x : ℚ) : ℚ := qdiv (qofInt (rhe (qmul x 100))) 100

/-- The `Product` pydantic model (`app/models/schemas.py`): `id`, `title`,
`description`, `price` are required, the rest optional with defaults. -/
structure Product where
  id : Int
  title : PyStr
  description : PyStr
  price : ℚ
  discountPercentage : Option ℚ
  rating : Option ℚ
  stock : Option Int
  brand : Option PyStr
  category : Option PyStr
  thumbnail : Option PyStr
deriving DecidableEq

/-- `compute_actual_price` (`product_service.py` lines 48-53).
`(discount_pct or 0.0)` sends `None` (and `0.0`) to `0.0`; the `except` branch
is unreachable for numeric arguments, so the model is the `try` branch. -/
def compute_actual_price (price : ℚ) (discount_pct : Option ℚ) : ℚ :=
  rnd2 (qmul price (qsub 1 (qdiv (discount_pct.getD 0) 100)))

theorem compute_actual_price_eq (price : ℚ) (discount_pct : Option ℚ) :
    compute_actual_price price discount_pct =
      rnd2 (price * (1 - (discount_pct.getD 0) / 100)) := by
  unfold compute_actual_price
  rw [qmul_eq, qsub_eq, qdiv_eq]

/-- `search_by_name` (`product_service.py` lines 55-63). -/
def search_by_name (products : List Product) (query : PyStr) : List Product :=
  let q := pyLower (pyStrip query)
  if q = [] then [] else products.filter (fun p => pyIn q (pyLower p.title))

/-- `search_by_category` (`product_service.py` lines 65-69). -/
def search_by_category (products : List Product) (category : PyStr) : List Product :=
  let c := pyLower (pyStrip category)
  if c = [] then [] else products.filter (fun p => pyLower (pyOrStr p.category []) == c)

/-- `filter_products` (`product_service.py` lines 71-79): three sequential
in-order filters, each applied only when its bound is supplied; a missing
rating counts as `0.0`. -/
def filter_products (products : List Product) (min_price max_price min_rating : Option ℚ) :
    List Product :=
  let out := products
  let out := match min_price with
    | some v => out.filter (fun p => decide (v ≤ p.price))
    | none => out
  let out := match max_price with
    | some v => out.filter (fun p => decide (p.price ≤ v))
    | none => out
  let out := match min_rating with
    | some v => out.filter (fun p => decide (v ≤ p.rating.getD 0))
    | none => out
  out

theorem rhe_nonneg (x : ℚ) (hx : 0 ≤ x) : 0 ≤ rhe x := by
  have hf : (0 : ℤ) ≤ ⌊x⌋ := Int.floor_nonneg.mpr hx
  unfold rhe
  simp only [qsub_eq, qofInt_eq, qfloor_eq, qhalf_eq]
  split
  · exact hf
  · split
    · omega
    · split
      · exact hf
      · omega

theorem rhe_le_add_half (x : ℚ) : (rhe x : ℚ) ≤ x + 1/2 := by
  have hf : (⌊x⌋ : ℚ) ≤ x := Int.floor_le x
  unfold rhe
  simp only [qsub_eq, qofInt_eq, qfloor_eq, qhalf_eq]
  split
  · linarith
  · rename_i h1
    split
    · push_cast
      linarith
    · rename_i h3
      have hx : x - (⌊x⌋ : ℚ) = 1/2 := le_antisymm (not_lt.mp h3) (not_lt.mp h1)
      split
      · linarith
      · push_cast
        linarith

theorem rnd2_eq (x : ℚ) : rnd2 x = (rhe (x * 100) : ℚ) / 100 := by
  unfold rnd2
  rw [qdiv_eq, qofInt_eq, qmul_eq]

theorem rnd2_nonneg (x : ℚ) (hx : 0 ≤ x) : 0 ≤ rnd2 x := by
  rw [rnd2_eq]
  have h : (0 : ℤ) ≤ rhe (x * 100) := rhe_nonneg _ (by positivity)
  have h' : (0 : ℚ) ≤ (rhe (x * 100) : ℚ) := by exact_mod_cast h
  positivity

theorem rnd2_le (x : ℚ) : rnd2 x ≤ x + 1/200 := by
  rw [rnd2_eq]
  have h : (rhe (x * 100) : ℚ) ≤ x * 100 + 1/2 := rhe_le_add_half _
  linarith

/-- C4 counterexample: with the discount absent, `compute_actual_price` returns
`round(p, 2)`, not `p` unchanged — at `p = 0.125` the code yields `0.12`. -/
theorem compute_actual_price_absent_not_id :
    Rat.divInt 1 8 = (1 : ℚ)/8 ∧ Rat.divInt 3 25 = (12 : ℚ)/100 ∧
    compute_actual_price (Rat.divInt 1 8) none = Rat.divInt 3 25 ∧
    compute_actual_price (Rat.divInt 1 8) none ≠ Rat.divInt 1 8 := by
  refine ⟨?_, ?_, by decide, by decide⟩
  · rw [Rat.divInt_eq_div]
    norm_num
  · rw [Rat.divInt_eq_div]
    norm_num

/-- C4 (amended): the result always equals `round(p * (1 - d/100), 2)` with an
absent discount treated as `0` (so absent, like `d = 0`, yields `round(p, 2)`,
not `p` unchanged); the function is total (never raises); and for
`0 ≤ d ≤ 100`, `0 ≤ p` the result lies between `0` and `p` within rounding
(`p + 1/200`). -/
theorem compute_actual_price_spec (p : ℚ) (d : Option ℚ)
    (hp : 0 ≤ p) (hd0 : 0 ≤ d.getD 0) (hd1 : d.getD 0 ≤ 100) :
    compute_actual_price p d = rnd2 (p * (1 - (d.getD 0) / 100)) ∧
    0 ≤ compute_actual_price p d ∧
    compute_actual_price p d ≤ p + 1/200 ∧
    compute_actual_price p (some 0) = rnd2 p ∧
    compute_actual_price p none = rnd2 p := by
  have hval0 : 0 ≤ p * (1 - (d.getD 0) / 100) := by
    have : 0 ≤ 1 - (d.getD 0) / 100 := by linarith
    exact mul_nonneg hp this
  have hvalp : p * (1 - (d.getD 0) / 100) ≤ p := by
    have h1 : 1 - (d.getD 0) / 100 ≤ 1 := by linarith
    calc p * (1 - (d.getD 0) / 100) ≤ p * 1 := by
          exact mul_le_mul_of_nonneg_left h1 hp
      _ = p := mul_one p
  refine ⟨compute_actual_price_eq p d, ?_, ?_, ?_, ?_⟩
  · rw [compute_actual_price_eq]
    exact rnd2_nonneg _ hval0
  · rw [compute_actual_price_eq]
    calc rnd2 (p * (1 - (d.getD 0) / 100)) ≤ p * (1 - (d.getD 0) / 100) + 1/200 := rnd2_le _
      _ ≤ p + 1/200 := by linarith
  · rw [compute_actual_price_eq]
    norm_num
  · rw [compute_actual_price_eq]
    norm_num

/-- C4 witness: the amended statement evaluated at `p = 10`, `d = 25`. -/
theorem compute_actual_price_spec_witness :
    compute_actual_price 10 (some 25) = rnd2 (10 * (1 - (25 : ℚ) / 100)) ∧
    0 ≤ compute_actual_price 10 (some 25) ∧
    compute_actual_price 10 (some 25) ≤ 10 + 1/200 ∧
    compute_actual_price 10 (some (0 : ℚ)) = rnd2 10 ∧
    compute_actual_price 10 none = rnd2 10 := by
  have h := compute_actual_price_spec 10 (some 25) (by norm_num) (by norm_num) (by norm_num)
  simpa using h

/-!
## The word normalizer (`_normalize_word`, `chatbot_service.py` lines 33-46)
-/

/-- The plural-suffix rules of `_normalize_word`, applied after
`word.lower().strip()`, first match wins (`w[:-k]` is `take (length - k)`). -/
def nwRules (w : PyStr) : PyStr :=
  if pyEndsWith w (pystr "ies") && decide (4 < w.length) then w.take (w.length - 3) ++ pystr "y"
  else if pyEndsWith w (pystr "oes") && decide (4 < w.length) then w.take (w.length - 2)
  else if pyEndsWith w (pystr "ches") || pyEndsWith w (pystr "shes") || pyEndsWith w (pystr "xes") then
    w.take (w.length - 2)
  else if pyEndsWith w (pystr "ses") && decide (4 < w.length) then w.take (w.length - 2)
  else if pyEndsWith w (pystr "s") && decide (3 < w.length) then w.take (w.length - 1)
  else w

/-- `_normalize_word` (`chatbot_service.py` lines 33-46). -/
def _normalize_word (word : PyStr) : PyStr := nwRules (pyStrip (pyLower word))

theorem lowerCp_idem (n : Nat) : lowerCp (lowerCp n) = lowerCp n := by
  by_cases h : 65 ≤ n ∧ n ≤ 90
  · have h1 : ¬ (65 ≤ n + 32 ∧ n + 32 ≤ 90) := by omega
    simp only [lowerCp, if_pos h, if_neg h1]
  · simp [lowerCp, h]

theorem map_fixed (l : List Nat) (f : Nat → Nat) (h : ∀ c ∈ l, f c = c) : l.map f = l := by
  induction l with
  | nil => rfl
  | cons a t ih =>
    simp only [List.map_cons, h a (by simp)]
    rw [ih (fun x hx => h x (by simp [hx]))]

theorem dropWhile_eq_self_of_head (l : List Nat) (p : Nat → Bool)
    (h : ∀ c, l.head? = some c → p c = false) : l.dropWhile p = l := by
  cases l with
  | nil => rfl
  | cons a t => exact List.dropWhile_cons_of_neg (by simp [h a rfl])

theorem head?_dropWhile_not (l : List Nat) (p : Nat → Bool) :
    ∀ c, (l.dropWhile p).head? = some c → p c = false := by
  induction l with
  | nil => intro c h; simp [List.dropWhile] at h
  | cons a t ih =>
    intro c h
    by_cases hpa : p a = true
    · rw [List.dropWhile_cons_of_pos hpa] at h
      exact ih c h
    · rw [List.dropWhile_cons_of_neg hpa] at h
      simp only [List.head?_cons, Option.some.injEq] at h
      subst h
      exact Bool.not_eq_true _ ▸ (by revert hpa; cases p a <;> simp)

theorem pyStrip_subset (s : PyStr) : ∀ c ∈ pyStrip s, c ∈ s := by
  intro c hc
  unfold pyStrip trimEnd at hc
  rw [List.mem_reverse] at hc
  have h1 := (List.dropWhile_suffix isSpaceCp).subset hc
  rw [List.mem_reverse] at h1
  exact (List.dropWhile_suffix isSpaceCp).subset h1

theorem pyStrip_head_not_space (s : PyStr) :
    ∀ c, (pyStrip s).head? = some c → isSpaceCp c = false := by
  intro c hc
  unfold pyStrip trimEnd at hc
  have hpre : ((s.dropWhile isSpaceCp).reverse.dropWhile isSpaceCp).reverse <+:
      s.dropWhile isSpaceCp := by
    have h := List.dropWhile_suffix (l := (s.dropWhile isSpaceCp).reverse) isSpaceCp
    have h2 := List.reverse_prefix.mpr h
    rwa [List.reverse_reverse] at h2
  rcases hpre with ⟨t, ht⟩
  have hh : (s.dropWhile isSpaceCp).head? = some c := by
    rw [← ht, List.head?_append, hc]
    rfl
  exact head?_dropWhile_not s isSpaceCp c hh

theorem pyStrip_eq_self (s : PyStr)
    (h1 : ∀ c, s.head? = some c → isSpaceCp c = false)
    (h2 : ∀ c, s.getLast? = some c → isSpaceCp c = false) :
    pyStrip s = s := by
  unfold pyStrip trimEnd
  rw [dropWhile_eq_self_of_head s _ h1]
  rw [dropWhile_eq_self_of_head s.reverse _ (by
    intro c hc
    rw [List.head?_reverse] at hc
    exact h2 c hc)]
  exact List.reverse_reverse s

theorem nwRules_mem (u : PyStr) : ∀ c ∈ nwRules u, c ∈ u ∨ c = 121 := by
  intro c
  unfold nwRules
  split
  · intro hc
    rcases List.mem_append.mp hc with h | h
    · exact Or.inl (List.mem_of_mem_take h)
    · right
      have hy : pystr "y" = [121] := by decide
      rw [hy] at h
      simpa using h
  · split
    · intro hc; exact Or.inl (List.mem_of_mem_take hc)
    · split
      · intro hc; exact Or.inl (List.mem_of_mem_take hc)
      · split
        · intro hc; exact Or.inl (List.mem_of_mem_take hc)
        · split
          · intro hc; exact Or.inl (List.mem_of_mem_take hc)
          · intro hc; exact Or.inl hc

theorem head?_take_or (u : PyStr) (k : Nat) :
    (u.take k).head? = u.head? ∨ u.take k = [] := by
  match k, u with
  | 0, _ => exact Or.inr rfl
  | Nat.succ _, [] => exact Or.inr rfl
  | Nat.succ _, a :: t => exact Or.inl rfl

theorem nwRules_head (u : PyStr) :
    ∀ c, (nwRules u).head? = some c → u.head? = some c ∨ c = 121 := by
  intro c
  unfold nwRules
  split
  · intro hc
    rw [List.head?_append] at hc
    rcases head?_take_or u (u.length - 3) with h | h
    · rw [h] at hc
      cases hu : u.head? with
      | none =>
        rw [hu] at hc
        right
        have hy : (pystr "y").head? = some 121 := by decide
        rw [hy] at hc
        simp only [Option.none_or, Option.some.injEq] at hc
        omega
      | some a =>
        rw [hu] at hc
        left
        simpa [Option.or] using hc
    · rw [h] at hc
      right
      have hy : (pystr "y").head? = some 121 := by decide
      simp only [List.head?_nil, Option.none_or, hy, Option.some.injEq] at hc
      omega
  · split
    · intro hc
      rcases head?_take_or u (u.length - 2) with h | h
      · rw [h] at hc; exact Or.inl hc
      · rw [h] at hc; simp at hc
    · split
      · intro hc
        rcases head?_take_or u (u.length - 2) with h | h
        · rw [h] at hc; exact Or.inl hc
        · rw [h] at hc; simp at hc
      · split
        · intro hc
          rcases head?_take_or u (u.length - 2) with h | h
          · rw [h] at hc; exact Or.inl hc
          · rw [h] at hc; simp at hc
        · split
          · intro hc
            rcases head?_take_or u (u.length - 1) with h | h
            · rw [h] at hc; exact Or.inl hc
            · rw [h] at hc; simp at hc
          · intro hc; exact Or.inl hc

theorem normalize_word_chars (w : PyStr) :
    ∀ c ∈ _normalize_word w, lowerCp c = c := by
  intro c hc
  unfold _normalize_word at hc
  rcases nwRules_mem _ c hc with h | h
  · have h1 : c ∈ pyLower w := pyStrip_subset _ c h
    rcases List.mem_map.mp h1 with ⟨d, _, hd⟩
    rw [← hd]
    exact lowerCp_idem d
  · subst h
    decide

theorem normalize_word_head (w : PyStr) :
    ∀ c, (_normalize_word w).head? = some c → isSpaceCp c = false := by
  intro c hc
  unfold _normalize_word at hc
  rcases nwRules_head _ c hc with h | h
  · exact pyStrip_head_not_space _ c h
  · subst h
    decide

theorem pyEndsWith_getLast (s pat : PyStr) (a : Nat) (hpat : pat.getLast? = some a)
    (h : pyEndsWith s pat = true) : s.getLast? = some a := by
  unfold pyEndsWith at h
  rw [List.isPrefixOf_iff_prefix] at h
  rcases h with ⟨t, ht⟩
  have hp : pat.reverse.head? = some a := by
    rw [List.head?_reverse]
    exact hpat
  have hs : s.reverse.head? = some a := by
    rw [← ht, List.head?_append, hp]
    rfl
  rw [List.head?_reverse] at hs
  exact hs

/-- C3 counterexample: `_normalize_word` is not idempotent.  On `"glasses"` the
`"ses"` rule gives `"glass"`, and a second application strips the final `"s"`,
giving `"glas"`. -/
theorem normalize_word_not_idempotent :
    _normalize_word (pystr "glasses") = pystr "glass" ∧
    _normalize_word (_normalize_word (pystr "glasses")) = pystr "glas" ∧
    _normalize_word (_normalize_word (pystr "glasses")) ≠ _normalize_word (pystr "glasses") := by
  refine ⟨by decide, by decide, by decide⟩

/-- C3 (amended): `_normalize_word ∘ _normalize_word = _normalize_word` fails in
general (see `normalize_word_not_idempotent`); it does hold at every input
whose normalized form does not end in the letter `s` (code 115) or in a
whitespace character, since every plural rule requires a trailing `s`. -/
theorem normalize_word_idem (w : PyStr)
    (h : (_normalize_word w).getLast? = none ∨
      ∃ a, (_normalize_word w).getLast? = some a ∧ a ≠ 115 ∧ isSpaceCp a = false) :
    _normalize_word (_normalize_word w) = _normalize_word w := by
  rcases h with h | ⟨a, ha, ha115, haspace⟩
  · have hnil : _normalize_word w = [] := List.getLast?_eq_none_iff.mp h
    rw [hnil]
    decide
  · have hlow : pyLower (_normalize_word w) = _normalize_word w :=
      map_fixed _ lowerCp (normalize_word_chars w)
    have hstrip : pyStrip (_normalize_word w) = _normalize_word w := by
      apply pyStrip_eq_self
      · exact normalize_word_head w
      · intro c hc
        rw [ha] at hc
        cases hc
        exact haspace
    have hend : ∀ pat : PyStr, pat.getLast? = some 115 →
        pyEndsWith (_normalize_word w) pat = false := by
      intro pat hpat
      cases hew : pyEndsWith (_normalize_word w) pat with
      | false => rfl
      | true =>
        have h115 := pyEndsWith_getLast _ pat 115 hpat hew
        rw [ha] at h115
        cases h115
        exact absurd rfl ha115
    conv_lhs => rw [_normalize_word]
    rw [hlow, hstrip]
    rw [nwRules]
    rw [hend (pystr "ies") (by decide), hend (pystr "oes") (by decide),
      hend (pystr "ches") (by decide), hend (pystr "shes") (by decide),
      hend (pystr "xes") (by decide), hend (pystr "ses") (by decide),
      hend (pystr "s") (by decide)]
    simp

/-- C3 witness: the amended idempotence applied at `"boxes"`, whose
normalization `"box"` ends in `x`. -/
theorem normalize_word_idem_witness :
    _normalize_word (_normalize_word (pystr "boxes")) = _normalize_word (pystr "boxes") :=
  normalize_word_idem (pystr "boxes") (Or.inr ⟨120, by decide, by decide, by decide⟩)

/-!
## Regex matchers and tokenization

`re.search` over the patterns of `chatbot_service.py` is modelled by scanning
positions left to right; for these patterns greedy matching without
backtracking coincides with the regex semantics.
-/

def isDigitCp (n : Nat) : Bool := decide (48 ≤ n ∧ n ≤ 57)

/-- The regex class `[A-Za-z0-9\-']` (used with `{2,}` and `{3,}`). -/
def isWordTokChar (n : Nat) : Bool :=
  isDigitCp n || decide (65 ≤ n ∧ n ≤ 90) || decide (97 ≤ n ∧ n ≤ 122) || n == 45 || n == 39

/-- The regex class `\w` (for `\b` boundaries): letters, digits, underscore. -/
def isWordCharCp (n : Nat) : Bool :=
  isDigitCp n || decide (65 ≤ n ∧ n ≤ 90) || decide (97 ≤ n ∧ n ≤ 122) || n == 95

def digitsVal (ds : PyStr) : Nat := ds.foldl (fun acc d => acc * 10 + (d - 48)) 0

/-- Parse the group `\d+(?:\.\d+)?` at the head of `s` (greedy), returning
`float(group)` and the remaining input. -/
def parseNumber (s : PyStr) : Option (ℚ × PyStr) :=
  let ds := s.takeWhile isDigitCp
  if ds = [] then none
  else
    match s.dropWhile isDigitCp with
    | 46 :: r2 =>
      let fs := r2.takeWhile isDigitCp
      if fs = [] then some (Rat.divInt (digitsVal ds) 1, s.dropWhile isDigitCp)
      else some (Rat.divInt (digitsVal ds * 10 ^ fs.length + digitsVal fs) (10 ^ fs.length),
        r2.dropWhile isDigitCp)
    | rest => some (Rat.divInt (digitsVal ds) 1, rest)

/-- Match a literal at the current position. -/
def matchLit (pat s : PyStr) : Option PyStr :=
  if pat.isPrefixOf s then some (s.drop pat.length) else none

/-- `\s+` at the current position (greedy). -/
def skipWs1 (s : PyStr) : Option PyStr :=
  match s with
  | c :: t => if isSpaceCp c then some (t.dropWhile isSpaceCp) else none
  | [] => none

/-- `\s*` at the current position (greedy). -/
def skipWs0 (s : PyStr) : PyStr := s.dropWhile isSpaceCp

/-- An alternation of literals, tried in order. -/
def matchAlt (pats : List PyStr) (s : PyStr) : Option PyStr :=
  match pats with
  | [] => none
  | p :: ps =>
    match matchLit p s with
    | some r => some r
    | none => matchAlt ps s

/-- `between\s+(\d+(?:\.\d+)?)\s+and\s+(\d+(?:\.\d+)?)` at the current position. -/
def betweenAt (s : PyStr) : Option (ℚ × ℚ) :=
  match matchLit (pystr "between") s with
  | none => none
  | some r1 =>
    match skipWs1 r1 with
    | none => none
    | some r2 =>
      match parseNumber r2 with
      | none => none
      | some (a, r3) =>
        match skipWs1 r3 with
        | none => none
        | some r4 =>
          match matchLit (pystr "and") r4 with
          | none => none
          | some r5 =>
            match skipWs1 r5 with
            | none => none
            | some r6 =>
              match parseNumber r6 with
              | none => none
              | some (b, _) => some (a, b)

/-- `(?:alt1|alt2|alt3)\s+\$?(\d+(?:\.\d+)?)` at the current position. -/
def boundAt (pats : List PyStr) (s : PyStr) : Option ℚ :=
  match matchAlt pats s with
  | none => none
  | some r1 =>
    match skipWs1 r1 with
    | none => none
    | some r2 =>
      match parseNumber (match r2 with | 36 :: t => t | _ => r2) with
      | none => none
      | some (x, _) => some x

/-- `re.search`: try the position matcher at every suffix, leftmost wins. -/
def searchPos {α : Type} (f : PyStr → Option α) : PyStr → Option α
  | [] => f []
  | c :: cs =>
    match f (c :: cs) with
    | some r => some r
    | none => searchPos f cs

/-- `_extract_price_range` (`chatbot_service.py` lines 49-60): the three
patterns are tried in order on the (case-insensitively matched) message; the
first `re.search` hit wins. -/
def _extract_price_range (message : PyStr) : Option ℚ × Option ℚ :=
  match searchPos betweenAt (pyLower message) with
  | some (a, b) => (some a, some b)
  | none =>
    match searchPos (boundAt [pystr "under", pystr "below", pystr "less than"]) (pyLower message) with
    | some x => (none, some x)
    | none =>
      match searchPos (boundAt [pystr "over", pystr "above", pystr "more than"]) (pyLower message) with
      | some x => (some x, none)
      | none => (none, none)

/-- `ratings?\s*(?:above|over|greater than)\s*(\d+(?:\.\d+)?)` at the current
position (`chatbot_service.py` line 186).  The optional `s` is consumed
greedily; no alternative continuation can succeed without it, since none of
the alternation literals starts with `s` and `\s*` skips no `s`. -/
def ratingThrAt (s : PyStr) : Option ℚ :=
  match matchLit (pystr "rating") s with
  | none => none
  | some r0 =>
    match matchAlt [pystr "above", pystr "over", pystr "greater than"]
        (skipWs0 (match r0 with | 115 :: t => t | _ => r0)) with
    | none => none
    | some r3 =>
      match parseNumber (skipWs0 r3) with
      | none => none
      | some (x, _) => some x

/-- The rating-threshold search of `chatbot_service.py` lines 185-188. -/
def ratingThrSearch (txt : PyStr) : Option ℚ := searchPos ratingThrAt (pyLower txt)

/-- `ratings?\s*(?:above|over|greater than)\s*\d` at the current position
(the guard of `chatbot_service.py` line 108). -/
def ratingGuardAt (s : PyStr) : Option Unit :=
  match matchLit (pystr "rating") s with
  | none => none
  | some r0 =>
    match matchAlt [pystr "above", pystr "over", pystr "greater than"]
        (skipWs0 (match r0 with | 115 :: t => t | _ => r0)) with
    | none => none
    | some r3 =>
      match skipWs0 r3 with
      | d :: _ => if isDigitCp d then some () else none
      | [] => none

/-- The product-resolution guard: `re.search(r'ratings?\s*(?:above|over|greater
than)\s*\d', txt, re.I)` is truthy. -/
def ratingGuardB (txt : PyStr) : Bool := (searchPos ratingGuardAt (pyLower txt)).isSome

/-- Maximal runs of characters satisfying `p` (the non-overlapping greedy
matches of `[class]{1,}`). -/
def splitRuns (p : Nat → Bool) : PyStr → List PyStr
  | [] => []
  | c :: cs =>
    if p c then
      match cs, splitRuns p cs with
      | d :: _, r :: rs => if p d then (c :: r) :: rs else [c] :: (r :: rs)
      | _, rest => [c] :: rest
    else splitRuns p cs

/-- `re.findall(r"[A-Za-z0-9\-']{m,}", s)`: maximal runs of token characters
of length at least `m`. -/
def findallTok (minLen : Nat) (s : PyStr) : List PyStr :=
  (splitRuns isWordTokChar s).filter (fun r => decide (minLen ≤ r.length))

/-- `str.split()` with no separator: maximal runs of non-whitespace. -/
def pySplitWs (s : PyStr) : List PyStr := splitRuns (fun c => !isSpaceCp c) s

/-- `norm_txt` (`chatbot_service.py` line 83): tokens of length ≥ 2 of the
lowercased text, each normalized, joined with single spaces. -/
def mkNormTxt (txt : PyStr) : PyStr :=
  List.intercalate [32] ((findallTok 2 (pyLower txt)).map _normalize_word)

/-- C6: `_extract_price_range` honors exactly the first matching pattern in the
fixed order between / under-below-less-than / over-above-more-than, matching
case-insensitively; a message matching both the `between` and `under` patterns
yields only the `between` result.  The last conjuncts check the four
documented examples, case-insensitivity, and the both-patterns case. -/
theorem extract_price_range_spec :
    (∀ s a b, searchPos betweenAt (pyLower s) = some (a, b) →
      _extract_price_range s = (some a, some b)) ∧
    (∀ s x, searchPos betweenAt (pyLower s) = none →
      searchPos (boundAt [pystr "under", pystr "below", pystr "less than"]) (pyLower s) = some x →
      _extract_price_range s = (none, some x)) ∧
    (∀ s x, searchPos betweenAt (pyLower s) = none →
      searchPos (boundAt [pystr "under", pystr "below", pystr "less than"]) (pyLower s) = none →
      searchPos (boundAt [pystr "over", pystr "above", pystr "more than"]) (pyLower s) = some x →
      _extract_price_range s = (some x, none)) ∧
    (∀ s, searchPos betweenAt (pyLower s) = none →
      searchPos (boundAt [pystr "under", pystr "below", pystr "less than"]) (pyLower s) = none →
      searchPos (boundAt [pystr "over", pystr "above", pystr "more than"]) (pyLower s) = none →
      _extract_price_range s = (none, none)) ∧
    _extract_price_range (pystr "between 10 and 50") = (some 10, some 50) ∧
    _extract_price_range (pystr "under 20") = (none, some 20) ∧
    _extract_price_range (pystr "over 5") = (some 5, none) ∧
    _extract_price_range (pystr "hello") = (none, none) ∧
    _extract_price_range (pystr "BETWEEN 10 AND 50") = (some 10, some 50) ∧
    _extract_price_range (pystr "is it under 20 or between 10 and 50") = (some 10, some 50) := by
  refine ⟨?_, ?_, ?_, ?_, by decide, by decide, by decide, by decide, by decide, by decide⟩
  · intro s a b h
    unfold _extract_price_range
    rw [h]
  · intro s x h1 h2
    unfold _extract_price_range
    rw [h1, h2]
  · intro s x h1 h2 h3
    unfold _extract_price_range
    rw [h1, h2, h3]
  · intro s h1 h2 h3
    unfold _extract_price_range
    rw [h1, h2, h3]

/-- C6 witness: the cascade conjuncts of `extract_price_range_spec` applied at
concrete messages. -/
theorem extract_price_range_spec_witness :
    _extract_price_range (pystr "between 1 and 2") = (some 1, some 2) ∧
    _extract_price_range (pystr "below 7") = (none, some 7) ∧
    _extract_price_range (pystr "above 3") = (some 3, none) ∧
    _extract_price_range (pystr "hey") = (none, none) :=
  ⟨extract_price_range_spec.1 _ 1 2 (by decide),
    extract_price_range_spec.2.1 _ 7 (by decide) (by decide),
    extract_price_range_spec.2.2.1 _ 3 (by decide) (by decide) (by decide),
    extract_price_range_spec.2.2.2.1 _ (by decide) (by decide) (by decide)⟩

/-!
## Product resolution (`chatbot_service.py` lines 82-105)
-/

/-- Tier 1 (line 86): exact lowercased title equality against the message. -/
def exactTitleMatches (products : List Product) (lower_txt : PyStr) : List Product :=
  products.filter (fun p => pyLower p.title == lower_txt)

/-- Tier 2 (lines 89-90): the whole lowercased title, normalized once as a
single string, occurs as a substring of `norm_txt`. -/
def substrTitleMatches (products : List Product) (norm_txt : PyStr) : List Product :=
  products.filter (fun p => pyIn (_normalize_word (pyLower p.title)) norm_txt)

/-- Line 94: tokens of length ≥ 3 of `norm_txt`, normalized (again). -/
def msgTokens (norm_txt : PyStr) : List PyStr := (findallTok 3 norm_txt).map _normalize_word

/-- Line 97: the normalized words of a product title. -/
def titleWords (p : Product) : List PyStr := (pySplitWs (pyLower p.title)).map _normalize_word

/-- Line 98: `score = len(set(tokens) & set(title_words))`. -/
def overlapScore (tokens : List PyStr) (p : Product) : Nat :=
  ((tokens.dedup).filter (fun t => decide (t ∈ titleWords p))).length

/-- Lines 95-100: the `(score, product)` pairs with positive score, in catalog
order. -/
def tier3Candidates (products : List Product) (norm_txt : PyStr) : List (Nat × Product) :=
  (products.map (fun p => (overlapScore (msgTokens norm_txt) p, p))).filter
    (fun sp => decide (0 < sp.1))

/-- Stable insertion into a descending-by-score list: the inserted element,
which is earlier in catalog order, goes before equal scores. -/
def insCand (x : Nat × Product) : List (Nat × Product) → List (Nat × Product)
  | [] => [x]
  | y :: ys => if y.1 ≤ x.1 then x :: y :: ys else y :: insCand x ys

/-- `candidates.sort(reverse=True, key=lambda x: x[0])` (line 101): Python's
`list.sort` is stable, and a stable descending sort has a unique result, here
realized as insertion sort. -/
def sortCands : List (Nat × Product) → List (Nat × Product)
  | [] => []
  | x :: xs => insCand x (sortCands xs)

/-- The three-tier `exact_matches`/`name_matches` resolution (lines 85-105). -/
def nameMatches (products : List Product) (lower_txt norm_txt : PyStr) : List Product :=
  match exactTitleMatches products lower_txt with
  | p :: ps => p :: ps
  | [] =>
    match substrTitleMatches products norm_txt with
    | p :: ps => p :: ps
    | [] =>
      match sortCands (tier3Candidates products norm_txt) with
      | [] => []
      | (_, p) :: _ => [p]

/-- Follows the spec's words for the token-overlap tier: highest score wins,
ties break to the product occurring first in catalog order, and an all-zero
score resolves nothing. -/
def bestScore (products : List Product) (score : Product → Nat) : Nat :=
  products.foldr (fun p m => max (score p) m) 0

/-- Follows the spec's words (see `bestScore`): the first product attaining
the maximal positive overlap score, if any. -/
def specBestByOverlap (products : List Product) (score : Product → Nat) : Option Product :=
  if bestScore products score = 0 then none
  else products.find? (fun p => score p == bestScore products score)

def maxKey (l : List (Nat × Product)) : Nat := l.foldr (fun a m => max a.1 m) 0

/-- `tier3Candidates` in the generic shape used by the sorting lemmas. -/
def candsOf (products : List Product) (score : Product → Nat) : List (Nat × Product) :=
  (products.map (fun p => (score p, p))).filter (fun sp => decide (0 < sp.1))

theorem tier3_eq_candsOf (products : List Product) (norm_txt : PyStr) :
    tier3Candidates products norm_txt = candsOf products (overlapScore (msgTokens norm_txt)) := rfl

theorem mem_maxKey_le (l : List (Nat × Product)) : ∀ x ∈ l, x.1 ≤ maxKey l := by
  induction l with
  | nil => intro x hx; simp at hx
  | cons a t ih =>
    intro x hx
    have hmk : maxKey (a :: t) = max a.1 (maxKey t) := rfl
    rcases List.mem_cons.mp hx with h | h
    · subst h; omega
    · have := ih x h; omega

theorem maxKey_attained (l : List (Nat × Product)) : l = [] ∨ ∃ a ∈ l, a.1 = maxKey l := by
  induction l with
  | nil => exact Or.inl rfl
  | cons x xs ih =>
    right
    have hmk : maxKey (x :: xs) = max x.1 (maxKey xs) := rfl
    rcases ih with h | ⟨a, ha, hamax⟩
    · subst h
      exact ⟨x, by simp, by rw [hmk]; simp [maxKey]⟩
    · by_cases hx : maxKey xs ≤ x.1
      · exact ⟨x, by simp, by rw [hmk]; omega⟩
      · refine ⟨a, by simp [ha], by rw [hmk, hamax]; omega⟩

theorem find?_congr_mem {α : Type} (l : List α) (p q : α → Bool)
    (h : ∀ a ∈ l, p a = q a) : l.find? p = l.find? q := by
  induction l with
  | nil => rfl
  | cons a t ih =>
    have hpa := h a (by simp)
    cases hq : q a with
    | true =>
      rw [List.find?_cons_of_pos _ (hpa.trans hq), List.find?_cons_of_pos _ hq]
    | false =>
      rw [List.find?_cons_of_neg _ (by simp [hpa, hq]), List.find?_cons_of_neg _ (by simp [hq])]
      exact ih (fun a ha => h a (by simp [ha]))

theorem head?_insCand (x : Nat × Product) (l : List (Nat × Product)) :
    (insCand x l).head? =
      match l.head? with
      | none => some x
      | some z => if z.1 ≤ x.1 then some x else some z := by
  cases l with
  | nil => rfl
  | cons z zs =>
    show (if z.1 ≤ x.1 then x :: z :: zs else z :: insCand x zs).head? = _
    split
    · rename_i h
      show some x = if z.1 ≤ x.1 then some x else some z
      rw [if_pos h]
    · rename_i h
      show some z = if z.1 ≤ x.1 then some x else some z
      rw [if_neg h]

theorem head?_sortCands (l : List (Nat × Product)) :
    (sortCands l).head? = l.find? (fun a => decide (maxKey l ≤ a.1)) := by
  induction l with
  | nil => rfl
  | cons x xs ih =>
    show (insCand x (sortCands xs)).head? = _
    rw [head?_insCand, ih]
    have hmk : maxKey (x :: xs) = max x.1 (maxKey xs) := rfl
    cases hfind : xs.find? (fun a => decide (maxKey xs ≤ a.1)) with
    | none =>
      show some x = (x :: xs).find? (fun a => decide (maxKey (x :: xs) ≤ a.1))
      rcases maxKey_attained xs with hnil | ⟨a, ha, hamax⟩
      · subst hnil
        rw [List.find?_cons_of_pos _ (by simp [maxKey])]
      · have hnone := List.find?_eq_none.mp hfind a ha
        simp [hamax] at hnone
    | some z =>
      have hz1 : maxKey xs ≤ z.1 := by simpa using List.find?_some hfind
      have hzeq : z.1 = maxKey xs :=
        le_antisymm (mem_maxKey_le xs z (List.mem_of_find?_eq_some hfind)) hz1
      show (if z.1 ≤ x.1 then some x else some z) =
        (x :: xs).find? (fun a => decide (maxKey (x :: xs) ≤ a.1))
      by_cases hzx : z.1 ≤ x.1
      · rw [if_pos hzx,
          List.find?_cons_of_pos _ (by simp only [hmk, decide_eq_true_eq]; omega)]
      · rw [if_neg hzx,
          List.find?_cons_of_neg _ (by simp only [hmk, decide_eq_true_eq]; omega)]
        have hrw : maxKey (x :: xs) = maxKey xs := by rw [hmk]; omega
        simp only [hrw]
        rw [hfind]

theorem maxKey_candsOf (products : List Product) (score : Product → Nat) :
    maxKey (candsOf products score) = bestScore products score := by
  induction products with
  | nil => rfl
  | cons p ps ih =>
    have hb : bestScore (p :: ps) score = max (score p) (bestScore ps score) := rfl
    by_cases hp : 0 < score p
    · have : candsOf (p :: ps) score = (score p, p) :: candsOf ps score := by
        unfold candsOf
        rw [List.map_cons, List.filter_cons_of_pos (by simpa using hp)]
      rw [this, hb]
      show max (score p) (maxKey (candsOf ps score)) = _
      rw [ih]
    · have hsp : score p = 0 := by omega
      have : candsOf (p :: ps) score = candsOf ps score := by
        unfold candsOf
        rw [List.map_cons, List.filter_cons_of_neg (by simpa using hp)]
      rw [this, hb, ih, hsp]
      omega

theorem score_le_bestScore (products : List Product) (score : Product → Nat) :
    ∀ p ∈ products, score p ≤ bestScore products score := by
  induction products with
  | nil => intro p hp; simp at hp
  | cons q ps ih =>
    intro p hp
    have hb : bestScore (q :: ps) score = max (score q) (bestScore ps score) := rfl
    rcases List.mem_cons.mp hp with h | h
    · subst h; omega
    · have := ih p h; omega

theorem bestScore_attained (products : List Product) (score : Product → Nat) :
    bestScore products score = 0 ∨ ∃ p ∈ products, score p = bestScore products score := by
  induction products with
  | nil => exact Or.inl rfl
  | cons q ps ih =>
    have hb : bestScore (q :: ps) score = max (score q) (bestScore ps score) := rfl
    rcases ih with h | ⟨p, hp, hps⟩
    · by_cases hq : score q = 0
      · left; rw [hb, h, hq]; omega
      · right; exact ⟨q, by simp, by rw [hb, h]; omega⟩
    · by_cases hc : bestScore ps score ≤ score q
      · right; exact ⟨q, by simp, by rw [hb]; omega⟩
      · right; exact ⟨p, by simp [hp], by rw [hb, hps]; omega⟩

theorem cands_nil_of_best_zero (products : List Product) (score : Product → Nat)
    (h : bestScore products score = 0) : candsOf products score = [] := by
  induction products with
  | nil => rfl
  | cons p ps ih =>
    have hb : bestScore (p :: ps) score = max (score p) (bestScore ps score) := rfl
    rw [hb] at h
    have hp : score p = 0 := by omega
    have hps : bestScore ps score = 0 := by omega
    unfold candsOf
    rw [List.map_cons, List.filter_cons_of_neg (by simp [hp])]
    exact ih hps

theorem find?_candsOf (products : List Product) (score : Product → Nat) (b : Nat) (hb : 0 < b) :
    (candsOf products score).find? (fun a => decide (b ≤ a.1)) =
      (products.find? (fun p => decide (b ≤ score p))).map (fun p => (score p, p)) := by
  induction products with
  | nil => rfl
  | cons p ps ih =>
    by_cases hp : 0 < score p
    · have hc : candsOf (p :: ps) score = (score p, p) :: candsOf ps score := by
        unfold candsOf
        rw [List.map_cons, List.filter_cons_of_pos (by simpa using hp)]
      rw [hc]
      by_cases hbp : b ≤ score p
      · rw [List.find?_cons_of_pos _ (by simpa using hbp),
          List.find?_cons_of_pos _ (by simpa using hbp)]
        rfl
      · rw [List.find?_cons_of_neg _ (by simpa using hbp),
          List.find?_cons_of_neg _ (by simpa using hbp)]
        exact ih
    · have hsp : score p = 0 := by omega
      have hc : candsOf (p :: ps) score = candsOf ps score := by
        unfold candsOf
        rw [List.map_cons, List.filter_cons_of_neg (by simpa using hp)]
      rw [hc, List.find?_cons_of_neg _ (by simp [hsp]; omega)]
      exact ih

/-- C5: when the exact-title and normalized-substring tiers are both empty, the
token-overlap tier resolves exactly the product described by the spec: the
message is tokenized into normalized tokens of length ≥ 3 (`msgTokens`), each
product scores the size of the set intersection with its normalized title
words (`overlapScore`), the highest score wins with ties broken in favor of
the first product in catalog order, and an all-zero score resolves nothing
(`specBestByOverlap` transcribes the spec's words). -/
theorem token_overlap_tier_spec (products : List Product) (lower_txt norm_txt : PyStr)
    (h1 : exactTitleMatches products lower_txt = [])
    (h2 : substrTitleMatches products norm_txt = []) :
    nameMatches products lower_txt norm_txt =
      match specBestByOverlap products (overlapScore (msgTokens norm_txt)) with
      | none => []
      | some p => [p] := by
  unfold nameMatches
  rw [h1, h2, tier3_eq_candsOf]
  unfold specBestByOverlap
  by_cases hbz : bestScore products (overlapScore (msgTokens norm_txt)) = 0
  · rw [cands_nil_of_best_zero _ _ hbz, if_pos hbz]
    rfl
  · have hb : 0 < bestScore products (overlapScore (msgTokens norm_txt)) :=
      Nat.pos_of_ne_zero hbz
    have hhead := head?_sortCands (candsOf products (overlapScore (msgTokens norm_txt)))
    rw [maxKey_candsOf, find?_candsOf _ _ _ hb] at hhead
    have hfc : products.find?
          (fun p => decide (bestScore products (overlapScore (msgTokens norm_txt)) ≤
            overlapScore (msgTokens norm_txt) p)) =
        products.find? (fun p => overlapScore (msgTokens norm_txt) p ==
          bestScore products (overlapScore (msgTokens norm_txt))) := by
      apply find?_congr_mem
      intro p hp
      have hle := score_le_bestScore products (overlapScore (msgTokens norm_txt)) p hp
      by_cases h : overlapScore (msgTokens norm_txt) p =
          bestScore products (overlapScore (msgTokens norm_txt))
      · simp [h]
      · have hlt : ¬ (bestScore products (overlapScore (msgTokens norm_txt)) ≤
            overlapScore (msgTokens norm_txt) p) := by omega
        simp [hlt, h]
    rw [hfc] at hhead
    cases hfind : products.find? (fun p => overlapScore (msgTokens norm_txt) p ==
        bestScore products (overlapScore (msgTokens norm_txt))) with
    | none =>
      rcases bestScore_attained products (overlapScore (msgTokens norm_txt)) with h | ⟨p, hp, hps⟩
      · exact absurd h hbz
      · have := List.find?_eq_none.mp hfind p hp
        simp [hps] at this
    | some q =>
      rw [hfind] at hhead
      rw [if_neg hbz]
      cases hsort : sortCands (candsOf products (overlapScore (msgTokens norm_txt))) with
      | nil =>
        rw [hsort] at hhead
        simp at hhead
      | cons z zs =>
        rw [hsort, List.head?_cons] at hhead
        have hz : z = (overlapScore (msgTokens norm_txt) q, q) := by
          simpa using hhead
        rw [hz]

/-- A small catalog for witnesses: two toys with overlapping titles. -/
def toyA : Product :=
  ⟨1, pystr "Red Ball Toy", pystr "A red toy.", 5, some 0, some 4, some 3, none,
    some (pystr "toys"), none⟩

def toyB : Product :=
  ⟨2, pystr "Blue Ball Toy", pystr "A blue toy.", 6, some 0, some 5, some 2, none,
    some (pystr "toys"), none⟩

/-- C5 witness: on the catalog `[toyA, toyB]` and the message
`"ball toy please"` both products score 2, the tie goes to `toyA` (first in
catalog order), and the resolver agrees with the spec-side definition. -/
theorem token_overlap_tier_spec_witness :
    (nameMatches [toyA, toyB] (pystr "ball toy please") (pystr "ball toy please") =
      match specBestByOverlap [toyA, toyB] (overlapScore (msgTokens (pystr "ball toy please"))) with
      | none => []
      | some p => [p]) ∧
    nameMatches [toyA, toyB] (pystr "ball toy please") (pystr "ball toy please") = [toyA] ∧
    overlapScore (msgTokens (pystr "ball toy please")) toyA = 2 ∧
    overlapScore (msgTokens (pystr "ball toy please")) toyB = 2 :=
  ⟨token_overlap_tier_spec [toyA, toyB] _ _ (by decide) (by decide),
    by decide, by decide, by decide⟩

/-!
## Formatting helpers (Python `str(...)` and `format(..., '.2f')`)
-/

/-- Decimal digits of a natural number, as code points. -/
def natRepr (n : Nat) : PyStr := (Nat.repr n).data.map Char.toNat

/-- Python `str(int)`. -/
def intRepr (i : Int) : PyStr := if i < 0 then 45 :: natRepr i.natAbs else natRepr i.toNat

def fmtF2n (c : Int) : PyStr :=
  natRepr (c.toNat / 100) ++ [46] ++
    (if c.toNat % 100 < 10 then 48 :: natRepr (c.toNat % 100) else natRepr (c.toNat % 100))

/-- Python `f"{x:.2f}"`: round half-even to two decimals, print two fractional
digits. -/
def fmtF2 (q : ℚ) : PyStr :=
  if q < 0 then 45 :: fmtF2n (rhe (qmul (qsub 0 q) 100)) else fmtF2n (rhe (qmul q 100))

def fracDigits : ℚ → Nat → List Nat
  | _, 0 => []
  | x, Nat.succ k =>
    (qfloor (qmul x 10)).toNat ::
      fracDigits (qsub (qmul x 10) (qofInt (qfloor (qmul x 10)))) k

def pyFloatReprPos (q : ℚ) : PyStr :=
  let ds := ((fracDigits (qsub q (qofInt (qfloor q))) 17).reverse.dropWhile (· == 0)).reverse
  natRepr (qfloor q).toNat ++ [46] ++ (if ds = [] then [48] else ds.map (fun d => 48 + d))

/-- Python `str(float)` for a float that stands for an exact short decimal:
integer part, dot, fractional digits (at least one, trailing zeros trimmed,
truncated at 17 places — enough for every decimal arising in this code). -/
def pyFloatRepr (q : ℚ) : PyStr :=
  if q < 0 then 45 :: pyFloatReprPos (qsub 0 q) else pyFloatReprPos q

/-- `f"{x}"` where `x : Optional[float]` (prints `None` when absent). -/
def pyOptFloatRepr (o : Option ℚ) : PyStr :=
  match o with
  | none => pystr "None"
  | some q => pyFloatRepr q

/-- `f"{x}"` where `x : Optional[int]`. -/
def pyOptIntRepr (o : Option Int) : PyStr :=
  match o with
  | none => pystr "None"
  | some i => intRepr i

/-!
## Intent vocabularies and classifiers (`chatbot_service.py` lines 13-31)
-/

def GREETINGS : List PyStr :=
  [pystr "hi", pystr "hello", pystr "hey", pystr "good morning", pystr "good afternoon",
    pystr "good evening", pystr "greetings"]

def FAREWELL : List PyStr :=
  [pystr "bye", pystr "goodbye", pystr "see you", pystr "take care"]

def INQUIRY_PRICE : List PyStr :=
  [pystr "price", pystr "cost", pystr "how much", pystr "what is the price", pystr "priced"]

def INQUIRY_STOCK : List PyStr :=
  [pystr "stock", pystr "available", pystr "availability", pystr "in stock"]

def INQUIRY_RATING : List PyStr :=
  [pystr "rating", pystr "ratings", pystr "review", pystr "reviews", pystr "stars"]

def INQUIRY_CATEGORY : List PyStr :=
  [pystr "category", pystr "categories", pystr "show me", pystr "any", pystr "do you have"]

def _is_greeting (message : PyStr) : Bool := GREETINGS.any (fun g => pyIn g (pyLower message))

def _is_farewell (message : PyStr) : Bool := FAREWELL.any (fun g => pyIn g (pyLower message))

def _contains_keyword (message : PyStr) (keywords : List PyStr) : Bool :=
  keywords.any (fun k => pyIn k (pyLower message))

/-!
## The Groq collaborator (`app/utils/groq_client.py`)
-/

def sentinelText : PyStr :=
  pystr "Sorry — I couldn\x27t reach the AI service right now. I can still give you a quick product summary if you want."

def sentinelPrefix : PyStr := pystr "Sorry — I couldn\x27t reach the AI service"

def emptyAiText : PyStr := pystr "Sorry — the AI returned an empty response."

/-- `query_groq`: the network is an oracle mapping the prompt to the parsed
content of the first successful attempt (`none` when every retry raised, in
which case the documented sentinel is returned; empty content is replaced by
a fixed non-empty reply, and content is stripped). -/
def query_groq (oracle : PyStr → Option PyStr) (prompt : PyStr) : PyStr :=
  match oracle prompt with
  | some content => if pyStrip content = [] then emptyAiText else pyStrip content
  | none => sentinelText

/-!
## The response composer (`chatbot_service.py` lines 62-219)
-/

/-- The `facts` dict (lines 114-124). -/
structure ProductFacts where
  name : PyStr
  description : PyStr
  price : ℚ
  discount : ℚ
  actual_price : ℚ
  rating : ℚ
  stock : Int
  brand : PyStr
  category : PyStr

def mkFacts (product : Product) : ProductFacts :=
  ⟨product.title, product.description, product.price, product.discountPercentage.getD 0,
    compute_actual_price product.price (some (product.discountPercentage.getD 0)),
    product.rating.getD 0, product.stock.getD 0,
    pyOrStr product.brand (pystr "Unknown"), pyOrStr product.category (pystr "Unknown")⟩

/-- Line 128. -/
def priceTemplate (facts : ProductFacts) : PyStr :=
  facts.name ++ pystr " is priced at $" ++ fmtF2 facts.price ++ pystr ". After a " ++
    fmtF2 facts.discount ++ pystr "% discount the final price is $" ++
    fmtF2 facts.actual_price ++ pystr "."

/-- Line 130. -/
def stockTemplate (facts : ProductFacts) : PyStr :=
  pystr "Currently we have " ++ intRepr facts.stock ++ pystr " unit(s) of " ++ facts.name ++
    pystr " in stock."

/-- Line 132. -/
def ratingTemplate (facts : ProductFacts) : PyStr :=
  facts.name ++ pystr " has an average rating of " ++ pyFloatRepr facts.rating ++ pystr " stars."

/-- The RAG prompt (lines 135-151), the triple-quoted f-string verbatim. -/
def ragPrompt (message : PyStr) (facts : ProductFacts) : PyStr :=
  pystr "\n        You are a helpful and friendly e-commerce assistant. Use only the facts below to answer the customer\x27s query naturally and helpfully.\n        Customer message: \x22" ++
    message ++
    pystr "\x22\n        \n        Product facts:\n        - Name: " ++ facts.name ++
    pystr "\n        - Brand: " ++ facts.brand ++
    pystr "\n        - Category: " ++ facts.category ++
    pystr "\n        - Description: " ++ facts.description ++
    pystr "\n        - Price: $" ++ fmtF2 facts.price ++
    pystr "\n        - Discount: " ++ fmtF2 facts.discount ++
    pystr "%\n        - Final price (after discount): $" ++ fmtF2 facts.actual_price ++
    pystr "\n        - Rating: " ++ pyFloatRepr facts.rating ++
    pystr "\n        - Stock: " ++ intRepr facts.stock ++
    pystr "\n        \n        Write a concise, friendly response (1–3 short paragraphs) that answers the user\x27s question using these facts. If the user is vague, offer helpful next steps or a follow-up question.\n        "

/-- The local summary substituted for the sentinel (lines 155-157). -/
def localSummary (facts : ProductFacts) : PyStr :=
  facts.name ++ pystr " — " ++ facts.description ++ pystr " Price: $" ++ fmtF2 facts.price ++
    pystr " (after " ++ fmtF2 facts.discount ++ pystr "% off: $" ++ fmtF2 facts.actual_price ++
    pystr "), rating " ++ pyFloatRepr facts.rating ++ pystr ", stock " ++ intRepr facts.stock ++
    pystr "."

/-- Lines 108-158: answer about a resolved product (`wants_price` is
`_contains_keyword txt INQUIRY_PRICE`, etc.; `x and not any([y, z])` is
`x && !y && !z`). -/
def answerProduct (message txt : PyStr) (product : Product)
    (oracle : PyStr → Option PyStr) : PyStr :=
  if _contains_keyword txt INQUIRY_PRICE && !_contains_keyword txt INQUIRY_STOCK &&
      !_contains_keyword txt INQUIRY_RATING then priceTemplate (mkFacts product)
  else if _contains_keyword txt INQUIRY_STOCK && !_contains_keyword txt INQUIRY_PRICE &&
      !_contains_keyword txt INQUIRY_RATING then stockTemplate (mkFacts product)
  else if _contains_keyword txt INQUIRY_RATING && !_contains_keyword txt INQUIRY_PRICE &&
      !_contains_keyword txt INQUIRY_STOCK then ratingTemplate (mkFacts product)
  else if pyStartsWith (query_groq oracle (ragPrompt message (mkFacts product)))
      sentinelPrefix then localSummary (mkFacts product)
  else query_groq oracle (ragPrompt message (mkFacts product))

/-- Is a word-class character right after the match (for the trailing `\b`)? -/
def boundaryAfterOk (r : PyStr) : Bool :=
  match r with
  | [] => true
  | c :: _ => !isWordCharCp c

def catsLitAt (s : PyStr) : Bool :=
  match matchLit (pystr "categories") s with
  | some r => boundaryAfterOk r
  | none => false

/-- `.*categories\b` starting here; `.` does not cross a newline. -/
def dotStarCategories : PyStr → Bool
  | [] => catsLitAt []
  | c :: cs => catsLitAt (c :: cs) || (c != 10 && dotStarCategories cs)

def catQAt (s : PyStr) : Bool :=
  catsLitAt s ||
    (match matchLit (pystr "types of products") s with
     | some r => boundaryAfterOk r
     | none => false) ||
    (match matchLit (pystr "what") s with
     | some r => dotStarCategories r
     | none => false)

def searchCatQ : Bool → PyStr → Bool
  | _, [] => false
  | prevWord, c :: cs => (!prevWord && catQAt (c :: cs)) || searchCatQ (isWordCharCp c) cs

/-- `re.search(r'\b(categories|types of products|what.*categories)\b', lower_txt)`
(line 163) is truthy. -/
def hasCategoriesQuery (s : PyStr) : Bool := searchCatQ false s

/-- Python `str.capitalize()` (ASCII). -/
def pyCapitalize (s : PyStr) : PyStr :=
  match s with
  | [] => []
  | c :: t => upperCp c :: t.map lowerCp

def lexLe : PyStr → PyStr → Bool
  | [], _ => true
  | _ :: _, [] => false
  | a :: as, b :: bs => if a < b then true else if b < a then false else lexLe as bs

def insStr (x : PyStr) : List PyStr → List PyStr
  | [] => [x]
  | y :: ys => if lexLe x y then x :: y :: ys else y :: insStr x ys

def sortStrs : List PyStr → List PyStr
  | [] => []
  | x :: xs => insStr x (sortStrs xs)

/-- `sorted(set(xs))` on strings: duplicates removed, code-point order. -/
def pySortedSet (xs : List PyStr) : List PyStr := sortStrs xs.dedup

/-- One listing line (lines 177-179 and 196-198; `Optional` fields print as
`None`, exactly as the f-string does). -/
def itemLine (it : Product) : PyStr :=
  it.title ++ pystr " — $" ++
    fmtF2 (compute_actual_price it.price (some (it.discountPercentage.getD 0))) ++
    pystr " (orig $" ++ fmtF2 it.price ++ pystr ", " ++ pyOptFloatRepr it.discountPercentage ++
    pystr "% off), rating " ++ pyOptFloatRepr it.rating ++ pystr ", stock " ++
    pyOptIntRepr it.stock

/-- Python truthiness of an optional float (`if min_rating:` etc.): `None` and
`0.0` are falsy. -/
def truthyQ (o : Option ℚ) : Bool :=
  match o with
  | some q => decide (q ≠ 0)
  | none => false

/-- The header selection of lines 200-208 — note the conditions are Python
truthiness tests, so an extracted bound equal to `0.0` falls through. -/
def filterHeader (low high min_rating : Option ℚ) : PyStr :=
  if truthyQ min_rating then
    pystr "Here are some products rated above " ++ pyOptFloatRepr min_rating ++ pystr ":\n"
  else if truthyQ high then
    pystr "Here are some products under $" ++ pyOptFloatRepr high ++ pystr ":\n"
  else if truthyQ low then
    pystr "Here are some products above $" ++ pyOptFloatRepr low ++ pystr ":\n"
  else pystr "Here are some matching products:\n"

def emptyMsgReply : PyStr :=
  pystr "Sorry, I didn\x27t receive a message. Please ask about a product or say \x27hi\x27."

def greetingReply : PyStr :=
  pystr "Hello! 👋 How can I help you today? Ask about a product name, category, price range, or rating."

def farewellReply : PyStr := pystr "Goodbye! If you need anything else, just ask."

def noProductsReply : PyStr :=
  pystr "Sorry — I couldn\x27t load products right now. Please try again later."

/-- The generic fallback prompt (lines 213-218). -/
def genericPrompt (message : PyStr) : PyStr :=
  pystr "\n    You are a friendly shopping assistant.\n    The user said: \x22" ++ message ++
    pystr "\x22\n    If the message is not specifically about a product, reply in a short conversational way,\n    but avoid making up product facts. If unsure, offer guidance on what they can ask.\n    "

/-- Steps 7-8 of the composer (lines 160-219): category listing, first
substring-matched category, numeric/rating filter, generic fallback. -/
def catalogSection (message txt lower_txt : PyStr) (products : List Product)
    (oracle : PyStr → Option PyStr) : PyStr :=
  if hasCategoriesQuery lower_txt then
    pystr "We currently offer products in these categories:\n- " ++
      List.intercalate (pystr "\n- ")
        (pySortedSet (products.map (fun p => pyCapitalize (pyOrStr p.category (pystr "unknown")))))
  else
    match (pySortedSet (products.map (fun p => pyLower (pyOrStr p.category (pystr "unknown"))))).find?
        (fun c => pyIn c lower_txt) with
    | some c =>
      match search_by_category products c with
      | [] => pystr "Sorry — I couldn\x27t find items in \x27" ++ c ++ pystr "\x27."
      | it :: its =>
        pystr "I found these items in *" ++ c ++ pystr "*:\n" ++
          List.intercalate [10] (((it :: its).take 6).map itemLine)
    | none =>
      match filter_products products (_extract_price_range txt).1 (_extract_price_range txt).2
          (ratingThrSearch txt) with
      | [] => query_groq oracle (genericPrompt message)
      | f :: fs =>
        filterHeader (_extract_price_range txt).1 (_extract_price_range txt).2
            (ratingThrSearch txt) ++
          List.intercalate [10] (((f :: fs).take 6).map itemLine)

/-- `generate_chat_response` (`chatbot_service.py` lines 62-219).  The catalog
snapshot (the result of `fetch_products`, empty when unavailable) and the Groq
network oracle are explicit inputs; the function is total, modelling "never
raises". -/
def generate_chat_response (message : PyStr) (products : List Product)
    (oracle : PyStr → Option PyStr) : PyStr :=
  if pyStrip message = [] then emptyMsgReply
  else if _is_greeting (pyStrip message) then greetingReply
  else if _is_farewell (pyStrip message) then farewellReply
  else if products = [] then noProductsReply
  else
    match nameMatches products (pyLower (pyStrip message)) (mkNormTxt (pyStrip message)),
        ratingGuardB (pyStrip message) with
    | p :: _, false => answerProduct message (pyStrip message) p oracle
    | _, _ =>
      catalogSection message (pyStrip message) (pyLower (pyStrip message)) products oracle

/-- C9: greeting and farewell short-circuit before any catalog access.  For a
nonempty stripped message classified as a greeting, the response is the canned
greeting; for one classified as a farewell (greeting is checked first), the
canned farewell; in both cases the response is identical across any two
catalog states — including an unavailable/empty catalog — and any two oracle
states. -/
theorem greeting_farewell_catalog_independent (message : PyStr)
    (products products' : List Product) (oracle oracle' : PyStr → Option PyStr)
    (hne : ¬ pyStrip message = []) :
    (_is_greeting (pyStrip message) = true →
      generate_chat_response message products oracle = greetingReply ∧
      generate_chat_response message products oracle =
        generate_chat_response message products' oracle') ∧
    (_is_greeting (pyStrip message) = false → _is_farewell (pyStrip message) = true →
      generate_chat_response message products oracle = farewellReply ∧
      generate_chat_response message products oracle =
        generate_chat_response message products' oracle') := by
  constructor
  · intro hg
    have h1 : generate_chat_response message products oracle = greetingReply := by
      unfold generate_chat_response
      rw [if_neg hne, if_pos hg]
    have h2 : generate_chat_response message products' oracle' = greetingReply := by
      unfold generate_chat_response
      rw [if_neg hne, if_pos hg]
    exact ⟨h1, h1.trans h2.symm⟩
  · intro hg hf
    have hg' : ¬ _is_greeting (pyStrip message) = true := by simp [hg]
    have h1 : generate_chat_response message products oracle = farewellReply := by
      unfold generate_chat_response
      rw [if_neg hne, if_neg hg', if_pos hf]
    have h2 : generate_chat_response message products' oracle' = farewellReply := by
      unfold generate_chat_response
      rw [if_neg hne, if_neg hg', if_pos hf]
    exact ⟨h1, h1.trans h2.symm⟩

/-- C9 witness: `"hi"` and `"bye"` across an empty and a nonempty catalog and
two different oracles. -/
theorem greeting_farewell_catalog_independent_witness :
    (generate_chat_response (pystr "hi") [] (fun _ => none) = greetingReply ∧
      generate_chat_response (pystr "hi") [] (fun _ => none) =
        generate_chat_response (pystr "hi") [toyA] (fun _ => some (pystr "LLM text"))) ∧
    (generate_chat_response (pystr "bye") [] (fun _ => none) = farewellReply ∧
      generate_chat_response (pystr "bye") [] (fun _ => none) =
        generate_chat_response (pystr "bye") [toyA] (fun _ => some (pystr "LLM text"))) :=
  ⟨(greeting_farewell_catalog_independent (pystr "hi") [] [toyA] (fun _ => none)
      (fun _ => some (pystr "LLM text")) (by decide)).1 (by decide),
    (greeting_farewell_catalog_independent (pystr "bye") [] [toyA] (fun _ => none)
      (fun _ => some (pystr "LLM text")) (by decide)).2 (by decide) (by decide)⟩

theorem append_ne_nil_right (a b : PyStr) (hb : b ≠ []) : a ++ b ≠ [] := by
  intro h
  exact hb (List.append_eq_nil.mp h).2

theorem append_ne_nil_left (a b : PyStr) (ha : a ≠ []) : a ++ b ≠ [] := by
  intro h
  exact ha (List.append_eq_nil.mp h).1

theorem query_groq_ne_nil (oracle : PyStr → Option PyStr) (prompt : PyStr) :
    query_groq oracle prompt ≠ [] := by
  cases horacle : oracle prompt with
  | none =>
    have h : query_groq oracle prompt = sentinelText := by
      unfold query_groq
      rw [horacle]
    rw [h]
    decide
  | some content =>
    have h : query_groq oracle prompt =
        if pyStrip content = [] then emptyAiText else pyStrip content := by
      unfold query_groq
      rw [horacle]
    rw [h]
    split
    · decide
    · assumption

theorem answerProduct_ne_nil (message txt : PyStr) (product : Product)
    (oracle : PyStr → Option PyStr) : answerProduct message txt product oracle ≠ [] := by
  unfold answerProduct
  split
  · exact append_ne_nil_right _ _ (by decide)
  · split
    · exact append_ne_nil_right _ _ (by decide)
    · split
      · exact append_ne_nil_right _ _ (by decide)
      · split
        · exact append_ne_nil_right _ _ (by decide)
        · exact query_groq_ne_nil _ _

theorem filterHeader_ne_nil (low high min_rating : Option ℚ) :
    filterHeader low high min_rating ≠ [] := by
  unfold filterHeader
  split
  · exact append_ne_nil_right _ _ (by decide)
  · split
    · exact append_ne_nil_right _ _ (by decide)
    · split
      · exact append_ne_nil_right _ _ (by decide)
      · decide

theorem catalogSection_ne_nil (message txt lower_txt : PyStr) (products : List Product)
    (oracle : PyStr → Option PyStr) :
    catalogSection message txt lower_txt products oracle ≠ [] := by
  unfold catalogSection
  split
  · exact append_ne_nil_left _ _ (by decide)
  · split
    · split
      · exact append_ne_nil_right _ _ (by decide)
      · exact append_ne_nil_left _ _ (append_ne_nil_left _ _ (append_ne_nil_left _ _ (by decide)))
    · split
      · exact query_groq_ne_nil _ _
      · exact append_ne_nil_left _ _ (filterHeader_ne_nil _ _ _)

/-- C1: `generate_chat_response` is total (the model of "never raises") and
returns a non-empty string for every message, catalog state and oracle state;
for an empty or whitespace-only message (`strip` removes all characters) it
returns the fixed canned "no message received" reply. -/
theorem generate_chat_response_total (message : PyStr) (products : List Product)
    (oracle : PyStr → Option PyStr) :
    generate_chat_response message products oracle ≠ [] ∧
    (pyStrip message = [] →
      generate_chat_response message products oracle = emptyMsgReply) := by
  constructor
  · unfold generate_chat_response
    split
    · decide
    · split
      · decide
      · split
        · decide
        · split
          · decide
          · split
            · exact answerProduct_ne_nil _ _ _ _
            · exact catalogSection_ne_nil _ _ _ _ _
  · intro h
    unfold generate_chat_response
    rw [if_pos h]

/-- C1 witness: a whitespace-only message (here with a non-ASCII catalog
untouched) gets the canned reply, and a non-ASCII message gets a non-empty
response. -/
theorem generate_chat_response_total_witness :
    generate_chat_response (pystr "   ") [toyA] (fun _ => none) = emptyMsgReply ∧
    generate_chat_response (pystr "héllo wörld ∑") [toyA] (fun _ => none) ≠ [] :=
  ⟨(generate_chat_response_total (pystr "   ") [toyA] (fun _ => none)).2 (by decide),
    (generate_chat_response_total (pystr "héllo wörld ∑") [toyA] (fun _ => none)).1⟩

/-- The condition under which `answerProduct` consults the generative fallback:
none of the three single-intent templates applies (lines 127-132 all skipped). -/
def usesFallback (txt : PyStr) : Bool :=
  !(_contains_keyword txt INQUIRY_PRICE && !_contains_keyword txt INQUIRY_STOCK &&
      !_contains_keyword txt INQUIRY_RATING) &&
  !(_contains_keyword txt INQUIRY_STOCK && !_contains_keyword txt INQUIRY_PRICE &&
      !_contains_keyword txt INQUIRY_RATING) &&
  !(_contains_keyword txt INQUIRY_RATING && !_contains_keyword txt INQUIRY_PRICE &&
      !_contains_keyword txt INQUIRY_STOCK)

theorem pyIn_self_prefix (x b : PyStr) : pyIn x (x ++ b) = true := by
  cases x with
  | nil =>
    cases b with
    | nil => rfl
    | cons c t => simp [pyIn]
  | cons c t =>
    show pyIn (c :: t) (c :: (t ++ b)) = true
    have hpre : (c :: t).isPrefixOf (c :: (t ++ b)) = true :=
      List.isPrefixOf_iff_prefix.mpr (List.prefix_append (c :: t) b)
    simp only [pyIn, hpre, Bool.true_or]

theorem pyIn_sandwich (a x b : PyStr) : pyIn x (a ++ (x ++ b)) = true := by
  induction a with
  | nil => simpa using pyIn_self_prefix x b
  | cons c t ih =>
    show pyIn x (c :: (t ++ (x ++ b))) = true
    simp only [pyIn, ih, Bool.or_true]

/-- C2: when a product is resolved (the ratings guard does not fire), the
fallback is actually consulted (no single-intent template applies,
`usesFallback`), and the collaborator fails so that `query_groq` returns its
sentinel, the final response is the synthesized local summary: it is not equal
to the sentinel, and it contains the resolved product's name and its formatted
price. -/
theorem sentinel_replaced_by_summary (message : PyStr) (products : List Product)
    (oracle : PyStr → Option PyStr) (p : Product) (ps : List Product)
    (hne : ¬ pyStrip message = [])
    (hg : _is_greeting (pyStrip message) = false)
    (hf : _is_farewell (pyStrip message) = false)
    (hprod : ¬ products = [])
    (hres : nameMatches products (pyLower (pyStrip message)) (mkNormTxt (pyStrip message)) =
      p :: ps)
    (hguard : ratingGuardB (pyStrip message) = false)
    (hfb : usesFallback (pyStrip message) = true)
    (horacle : oracle (ragPrompt message (mkFacts p)) = none) :
    generate_chat_response message products oracle = localSummary (mkFacts p) ∧
    generate_chat_response message products oracle ≠ sentinelText ∧
    pyIn p.title (generate_chat_response message products oracle) = true ∧
    pyIn (fmtF2 p.price) (generate_chat_response message products oracle) = true := by
  have hg' : ¬ _is_greeting (pyStrip message) = true := by simp [hg]
  have hf' : ¬ _is_farewell (pyStrip message) = true := by simp [hf]
  have hresp : generate_chat_response message products oracle =
      answerProduct message (pyStrip message) p oracle := by
    unfold generate_chat_response
    rw [if_neg hne, if_neg hg', if_neg hf', if_neg hprod, hres, hguard]
  simp only [usesFallback, Bool.and_eq_true, Bool.not_eq_true'] at hfb
  obtain ⟨⟨hc1, hc2⟩, hc3⟩ := hfb
  have hq : query_groq oracle (ragPrompt message (mkFacts p)) = sentinelText := by
    unfold query_groq
    rw [horacle]
  have hans : answerProduct message (pyStrip message) p oracle = localSummary (mkFacts p) := by
    unfold answerProduct
    rw [if_neg (by simp [hc1]), if_neg (by simp [hc2]), if_neg (by simp [hc3]), hq,
      if_pos (by decide : pyStartsWith sentinelText sentinelPrefix = true)]
  have hfinal : generate_chat_response message products oracle = localSummary (mkFacts p) :=
    hresp.trans hans
  refine ⟨hfinal, ?_, ?_, ?_⟩
  · intro hcontra
    have hoff : pyIn (pystr "% off: $") (localSummary (mkFacts p)) = true := by
      have hsplit : localSummary (mkFacts p) =
          (p.title ++ pystr " — " ++ p.description ++ pystr " Price: $" ++
            fmtF2 (mkFacts p).price ++ pystr " (after " ++ fmtF2 (mkFacts p).discount) ++
          (pystr "% off: $" ++
            (fmtF2 (mkFacts p).actual_price ++ pystr "), rating " ++
              pyFloatRepr (mkFacts p).rating ++ pystr ", stock " ++
              intRepr (mkFacts p).stock ++ pystr ".")) := by
        simp [localSummary, mkFacts, List.append_assoc]
      rw [hsplit]
      exact pyIn_sandwich _ _ _
    rw [← hfinal, hcontra] at hoff
    have : pyIn (pystr "% off: $") sentinelText = false := by decide
    rw [this] at hoff
    cases hoff
  · rw [hfinal]
    have hsplit : localSummary (mkFacts p) =
        p.title ++
          (pystr " — " ++ p.description ++ pystr " Price: $" ++ fmtF2 (mkFacts p).price ++
            pystr " (after " ++ fmtF2 (mkFacts p).discount ++ pystr "% off: $" ++
            fmtF2 (mkFacts p).actual_price ++ pystr "), rating " ++
            pyFloatRepr (mkFacts p).rating ++ pystr ", stock " ++
            intRepr (mkFacts p).stock ++ pystr ".") := by
      simp [localSummary, mkFacts, List.append_assoc]
    rw [hsplit]
    exact pyIn_self_prefix _ _
  · rw [hfinal]
    have hsplit : localSummary (mkFacts p) =
        (p.title ++ pystr " — " ++ p.description ++ pystr " Price: $") ++
          (fmtF2 p.price ++
            (pystr " (after " ++ fmtF2 (mkFacts p).discount ++ pystr "% off: $" ++
              fmtF2 (mkFacts p).actual_price ++ pystr "), rating " ++
              pyFloatRepr (mkFacts p).rating ++ pystr ", stock " ++
              intRepr (mkFacts p).stock ++ pystr ".")) := by
      simp [localSummary, mkFacts, List.append_assoc]
    rw [hsplit]
    exact pyIn_sandwich _ _ _

/-- The Kiwi product used by several witnesses (a typical catalog row). -/
def kiwiProduct : Product :=
  ⟨11, pystr "Kiwi", pystr "A fuzzy green fruit.", 5, some 10, some (Rat.divInt 9 2), some 3,
    none, some (pystr "groceries"), none⟩

/-- C2 witness: `"Tell me about Kiwi"` resolves Kiwi, no single-intent template
applies, and a dead oracle yields the local summary with name and price. -/
theorem sentinel_replaced_by_summary_witness :
    generate_chat_response (pystr "Tell me about Kiwi") [kiwiProduct] (fun _ => none) =
      localSummary (mkFacts kiwiProduct) ∧
    generate_chat_response (pystr "Tell me about Kiwi") [kiwiProduct] (fun _ => none) ≠
      sentinelText ∧
    pyIn kiwiProduct.title
      (generate_chat_response (pystr "Tell me about Kiwi") [kiwiProduct] (fun _ => none)) =
      true ∧
    pyIn (fmtF2 kiwiProduct.price)
      (generate_chat_response (pystr "Tell me about Kiwi") [kiwiProduct] (fun _ => none)) =
      true :=
  sentinel_replaced_by_summary (pystr "Tell me about Kiwi") [kiwiProduct] (fun _ => none)
    kiwiProduct [] (by decide) (by decide) (by decide) (by decide) (by decide) (by decide)
    (by decide) rfl

theorem generate_eq_catalogSection (message : PyStr) (products : List Product)
    (oracle : PyStr → Option PyStr)
    (hne : ¬ pyStrip message = [])
    (hg : _is_greeting (pyStrip message) = false)
    (hf : _is_farewell (pyStrip message) = false)
    (hprod : ¬ products = [])
    (hskip : nameMatches products (pyLower (pyStrip message)) (mkNormTxt (pyStrip message)) = [] ∨
      ratingGuardB (pyStrip message) = true) :
    generate_chat_response message products oracle =
      catalogSection message (pyStrip message) (pyLower (pyStrip message)) products oracle := by
  have hg' : ¬ _is_greeting (pyStrip message) = true := by simp [hg]
  have hf' : ¬ _is_farewell (pyStrip message) = true := by simp [hf]
  unfold generate_chat_response
  rw [if_neg hne, if_neg hg', if_neg hf', if_neg hprod]
  cases hnm : nameMatches products (pyLower (pyStrip message)) (mkNormTxt (pyStrip message)) with
  | nil => rfl
  | cons p ps =>
    rcases hskip with h | h
    · rw [h] at hnm
      cases hnm
    · rw [h]

theorem catalogSection_filter_eq (message txt lower_txt : PyStr) (products : List Product)
    (oracle : PyStr → Option PyStr)
    (hcat : hasCategoriesQuery lower_txt = false)
    (hfind : (pySortedSet (products.map
        (fun p => pyLower (pyOrStr p.category (pystr "unknown"))))).find?
        (fun c => pyIn c lower_txt) = none)
    (f : Product) (fs : List Product)
    (hfil : filter_products products (_extract_price_range txt).1 (_extract_price_range txt).2
      (ratingThrSearch txt) = f :: fs) :
    catalogSection message txt lower_txt products oracle =
      filterHeader (_extract_price_range txt).1 (_extract_price_range txt).2
          (ratingThrSearch txt) ++
        List.intercalate [10]
          (((filter_products products (_extract_price_range txt).1
              (_extract_price_range txt).2 (ratingThrSearch txt)).take 6).map itemLine) := by
  unfold catalogSection
  rw [if_neg (by simp [hcat]), hfind, hfil]

/-- C7: `filter_products` applies its predicates conjunctively — price ≥
min_price, price ≤ max_price, rating ≥ min_rating with a missing rating as 0 —
for exactly the supplied bounds; the result is a sublist of the catalog (order
preserved) containing exactly the satisfying products with no count cap in the
filter itself; the display cap of 6 is applied afterwards by the response
composer, which shows `(filter_products ...).take 6`. -/
theorem filter_products_spec :
    (∀ (products : List Product) (lo hi r : Option ℚ),
      filter_products products lo hi r = products.filter (fun p =>
        (match lo with | some v => decide (v ≤ p.price) | none => true) &&
        (match hi with | some v => decide (p.price ≤ v) | none => true) &&
        (match r with | some v => decide (v ≤ p.rating.getD 0) | none => true))) ∧
    (∀ (products : List Product) (lo hi r : Option ℚ),
      (filter_products products lo hi r).Sublist products) ∧
    (∀ (products : List Product) (lo hi r : Option ℚ) (p : Product),
      p ∈ filter_products products lo hi r ↔
        p ∈ products ∧ (∀ v, lo = some v → v ≤ p.price) ∧
          (∀ v, hi = some v → p.price ≤ v) ∧ (∀ v, r = some v → v ≤ p.rating.getD 0)) ∧
    (∀ (products : List Product) (lo hi r : Option ℚ),
      (((filter_products products lo hi r).take 6).map itemLine).length ≤ 6 ∧
      ((filter_products products lo hi r).take 6) <+: filter_products products lo hi r) ∧
    (∀ (message : PyStr) (products : List Product) (oracle : PyStr → Option PyStr)
        (f : Product) (fs : List Product),
      ¬ pyStrip message = [] →
      _is_greeting (pyStrip message) = false →
      _is_farewell (pyStrip message) = false →
      ¬ products = [] →
      (nameMatches products (pyLower (pyStrip message)) (mkNormTxt (pyStrip message)) = [] ∨
        ratingGuardB (pyStrip message) = true) →
      hasCategoriesQuery (pyLower (pyStrip message)) = false →
      (pySortedSet (products.map
          (fun p => pyLower (pyOrStr p.category (pystr "unknown"))))).find?
          (fun c => pyIn c (pyLower (pyStrip message))) = none →
      filter_products products (_extract_price_range (pyStrip message)).1
          (_extract_price_range (pyStrip message)).2 (ratingThrSearch (pyStrip message)) =
        f :: fs →
      generate_chat_response message products oracle =
        filterHeader (_extract_price_range (pyStrip message)).1
            (_extract_price_range (pyStrip message)).2 (ratingThrSearch (pyStrip message)) ++
          List.intercalate [10]
            (((filter_products products (_extract_price_range (pyStrip message)).1
                (_extract_price_range (pyStrip message)).2
                (ratingThrSearch (pyStrip message))).take 6).map itemLine)) := by
  have hfp : ∀ (products : List Product) (lo hi r : Option ℚ),
      filter_products products lo hi r = products.filter (fun p =>
        (match lo with | some v => decide (v ≤ p.price) | none => true) &&
        (match hi with | some v => decide (p.price ≤ v) | none => true) &&
        (match r with | some v => decide (v ≤ p.rating.getD 0) | none => true)) := by
    intro products lo hi r
    rcases lo with _ | vlo <;> rcases hi with _ | vhi <;> rcases r with _ | vr <;>
      simp [filter_products, List.filter_filter, Bool.and_comm, Bool.and_left_comm,
        Bool.and_assoc]
  refine ⟨hfp, ?_, ?_, ?_, ?_⟩
  · intro products lo hi r
    rw [hfp]
    exact List.filter_sublist products
  · intro products lo hi r p
    rw [hfp, List.mem_filter]
    rcases lo with _ | vlo <;> rcases hi with _ | vhi <;> rcases r with _ | vr <;>
      simp [and_assoc]
  · intro products lo hi r
    constructor
    · simp [List.length_take]
    · exact List.take_prefix 6 _
  · intro message products oracle f fs hne hg hf hprod hskip hcat hfind hfil
    rw [generate_eq_catalogSection message products oracle hne hg hf hprod hskip]
    exact catalogSection_filter_eq message (pyStrip message) (pyLower (pyStrip message))
      products oracle hcat hfind f fs hfil

/-- C7 witness: the composer conjunct applied at the message
`"products under 10"` on the Kiwi catalog, plus a membership instance. -/
theorem filter_products_spec_witness :
    generate_chat_response (pystr "products under 10") [kiwiProduct] (fun _ => none) =
      filterHeader (_extract_price_range (pyStrip (pystr "products under 10"))).1
          (_extract_price_range (pyStrip (pystr "products under 10"))).2
          (ratingThrSearch (pyStrip (pystr "products under 10"))) ++
        List.intercalate [10]
          (((filter_products [kiwiProduct]
              (_extract_price_range (pyStrip (pystr "products under 10"))).1
              (_extract_price_range (pyStrip (pystr "products under 10"))).2
              (ratingThrSearch (pyStrip (pystr "products under 10")))).take 6).map itemLine) ∧
    (kiwiProduct ∈ filter_products [kiwiProduct] none (some 10) none ↔
      kiwiProduct ∈ [kiwiProduct] ∧ (∀ v, (none : Option ℚ) = some v → v ≤ kiwiProduct.price) ∧
        (∀ v, (some (10 : ℚ)) = some v → kiwiProduct.price ≤ v) ∧
        (∀ v, (none : Option ℚ) = some v → v ≤ kiwiProduct.rating.getD 0)) :=
  ⟨filter_products_spec.2.2.2.2 (pystr "products under 10") [kiwiProduct] (fun _ => none)
      kiwiProduct [] (by decide) (by decide) (by decide) (by decide) (Or.inl (by decide))
      (by decide) (by decide) (by decide),
    filter_products_spec.2.2.1 [kiwiProduct] none (some 10) none kiwiProduct⟩

set_option maxRecDepth 100000 in
/-- C8 counterexample: for the message `"ratings greater than 0"` a
minimum-rating threshold IS extracted (`some 0`) and the filter yields a
product, yet the response carries the generic header, not the rating header:
`if min_rating:` is a Python truthiness test and `0.0` is falsy. -/
theorem filter_header_priority_counterexample :
    ratingThrSearch (pyStrip (pystr "ratings greater than 0")) = some 0 ∧
    filter_products [kiwiProduct]
        (_extract_price_range (pyStrip (pystr "ratings greater than 0"))).1
        (_extract_price_range (pyStrip (pystr "ratings greater than 0"))).2
        (ratingThrSearch (pyStrip (pystr "ratings greater than 0"))) = [kiwiProduct] ∧
    generate_chat_response (pystr "ratings greater than 0") [kiwiProduct] (fun _ => none) =
      pystr "Here are some matching products:\n" ++ itemLine kiwiProduct ∧
    pyStartsWith
      (generate_chat_response (pystr "ratings greater than 0") [kiwiProduct] (fun _ => none))
      (pystr "Here are some products rated above") = false := by
  refine ⟨by decide, by decide, by decide, by decide⟩

/-- C8 (amended): in the numeric-filter branch the response is
`filterHeader ++ lines` with at most 6 lines, and the header follows the fixed
priority rating / under-price / above-price / generic — but each condition is
a Python truthiness test (`truthyQ`): a header is chosen only when its bound
was extracted as a non-null AND nonzero value, so e.g. a threshold of `0.0`
falls through to the next header. -/
theorem filter_header_priority (message : PyStr) (products : List Product)
    (oracle : PyStr → Option PyStr) (f : Product) (fs : List Product)
    (hne : ¬ pyStrip message = [])
    (hg : _is_greeting (pyStrip message) = false)
    (hf : _is_farewell (pyStrip message) = false)
    (hprod : ¬ products = [])
    (hskip : nameMatches products (pyLower (pyStrip message)) (mkNormTxt (pyStrip message)) = [] ∨
      ratingGuardB (pyStrip message) = true)
    (hcat : hasCategoriesQuery (pyLower (pyStrip message)) = false)
    (hfind : (pySortedSet (products.map
        (fun p => pyLower (pyOrStr p.category (pystr "unknown"))))).find?
        (fun c => pyIn c (pyLower (pyStrip message))) = none)
    (hfil : filter_products products (_extract_price_range (pyStrip message)).1
        (_extract_price_range (pyStrip message)).2 (ratingThrSearch (pyStrip message)) =
      f :: fs) :
    generate_chat_response message products oracle =
      filterHeader (_extract_price_range (pyStrip message)).1
          (_extract_price_range (pyStrip message)).2 (ratingThrSearch (pyStrip message)) ++
        List.intercalate [10] (((f :: fs).take 6).map itemLine) ∧
    (((f :: fs).take 6).map itemLine).length ≤ 6 ∧
    (∀ lo hi mr : Option ℚ, truthyQ mr = true →
      filterHeader lo hi mr =
        pystr "Here are some products rated above " ++ pyOptFloatRepr mr ++ pystr ":\n") ∧
    (∀ lo hi mr : Option ℚ, truthyQ mr = false → truthyQ hi = true →
      filterHeader lo hi mr =
        pystr "Here are some products under $" ++ pyOptFloatRepr hi ++ pystr ":\n") ∧
    (∀ lo hi mr : Option ℚ, truthyQ mr = false → truthyQ hi = false → truthyQ lo = true →
      filterHeader lo hi mr =
        pystr "Here are some products above $" ++ pyOptFloatRepr lo ++ pystr ":\n") ∧
    (∀ lo hi mr : Option ℚ, truthyQ mr = false → truthyQ hi = false → truthyQ lo = false →
      filterHeader lo hi mr = pystr "Here are some matching products:\n") := by
  refine ⟨?_, by simp [List.length_take], ?_, ?_, ?_, ?_⟩
  · rw [generate_eq_catalogSection message products oracle hne hg hf hprod hskip,
      catalogSection_filter_eq message (pyStrip message) (pyLower (pyStrip message))
        products oracle hcat hfind f fs hfil, hfil]
  · intro lo hi mr h1
    unfold filterHeader
    rw [if_pos h1]
  · intro lo hi mr h1 h2
    unfold filterHeader
    rw [if_neg (by simp [h1]), if_pos h2]
  · intro lo hi mr h1 h2 h3
    unfold filterHeader
    rw [if_neg (by simp [h1]), if_neg (by simp [h2]), if_pos h3]
  · intro lo hi mr h1 h2 h3
    unfold filterHeader
    rw [if_neg (by simp [h1]), if_neg (by simp [h2]), if_neg (by simp [h3])]

/-- C8 witness: `"show items with ratings above 4"` takes the filter branch
with a truthy threshold, so the rating header is chosen. -/
theorem filter_header_priority_witness :
    generate_chat_response (pystr "show items with ratings above 4") [kiwiProduct]
        (fun _ => none) =
      filterHeader
          (_extract_price_range (pyStrip (pystr "show items with ratings above 4"))).1
          (_extract_price_range (pyStrip (pystr "show items with ratings above 4"))).2
          (ratingThrSearch (pyStrip (pystr "show items with ratings above 4"))) ++
        List.intercalate [10] (([kiwiProduct].take 6).map itemLine) ∧
    filterHeader none none (some 4) =
      pystr "Here are some products rated above " ++ pyOptFloatRepr (some 4) ++ pystr ":\n" :=
  ⟨(filter_header_priority (pystr "show items with ratings above 4") [kiwiProduct]
      (fun _ => none) kiwiProduct [] (by decide) (by decide) (by decide) (by decide)
      (Or.inr (by decide)) (by decide) (by decide) (by decide)).1,
    (filter_header_priority (pystr "show items with ratings above 4") [kiwiProduct]
      (fun _ => none) kiwiProduct [] (by decide) (by decide) (by decide) (by decide)
      (Or.inr (by decide)) (by decide) (by decide) (by decide)).2.2.1 none none (some 4)
      (by decide)⟩

theorem isSpaceCp_lowerCp (n : Nat) : isSpaceCp (lowerCp n) = isSpaceCp n := by
  unfold lowerCp
  split
  · rename_i h
    have h1 : isSpaceCp (n + 32) = false := by
      simp [isSpaceCp]
      omega
    have h2 : isSpaceCp n = false := by
      simp [isSpaceCp]
      omega
    rw [h1, h2]
  · rfl

theorem getLast?_pyLower (s : PyStr) : (pyLower s).getLast? = s.getLast?.map lowerCp := by
  rw [← List.head?_reverse]
  rw [show (pyLower s).reverse = s.reverse.map lowerCp from by simp [pyLower]]
  rw [List.head?_map, List.head?_reverse]

theorem take_append_cons (a b : PyStr) (k : Nat) (hk : k ≤ b.length) :
    (a ++ 32 :: b).take ((a ++ 32 :: b).length - k) = a ++ 32 :: b.take (b.length - k) := by
  have hlen : (a ++ 32 :: b).length = a.length + 1 + b.length := by
    simp [List.length_append]
    omega
  rw [List.take_append_eq_append_take]
  rw [List.take_of_length_le (by omega)]
  congr 1
  have hn : (a ++ 32 :: b).length - k - a.length = (b.length - k) + 1 := by omega
  rw [hn, List.take_succ_cons]

/-- C10: in the normalized-substring tier the singularizer is applied once to
the entire lowercased title (conjunct 1 restates the tier's predicate).  Hence
only a suffix at the very end of the whole title can be stripped: for every
title of the form `a ++ " " ++ b` (no leading space in `a`, final word `b` of
length ≥ 4 with no trailing space), the normalized title is `lower(a) ++ " " ++
b'` for some `b'` — interior words are only lowercased, never singularized.
Concretely, `"Apples Basket"` normalizes to `"apples basket"` (interior plural
kept), while per-word normalization would give `"apple basket"`. -/
theorem substr_tier_whole_title_normalization :
    (∀ (products : List Product) (norm_txt : PyStr),
      substrTitleMatches products norm_txt =
        products.filter (fun p => pyIn (_normalize_word (pyLower p.title)) norm_txt)) ∧
    (∀ a b : PyStr, a ≠ [] →
      (∀ c, a.head? = some c → isSpaceCp c = false) →
      4 ≤ b.length →
      (∀ c, b.getLast? = some c → isSpaceCp c = false) →
      ∃ b', _normalize_word (a ++ 32 :: b) = pyLower a ++ 32 :: b') ∧
    _normalize_word (pystr "Apples Basket") = pystr "apples basket" ∧
    List.intercalate [32] ((pySplitWs (pyLower (pystr "Apples Basket"))).map _normalize_word) =
      pystr "apple basket" := by
  refine ⟨fun _ _ => rfl, ?_, by decide, by decide⟩
  intro a b ha hhead hblen hlast
  have h32 : lowerCp 32 = 32 := rfl
  have hlow : pyLower (a ++ 32 :: b) = pyLower a ++ 32 :: pyLower b := by
    simp [pyLower, h32]
  have hblen' : 4 ≤ (pyLower b).length := by
    simpa [pyLower] using hblen
  have hbne : pyLower b ≠ [] := by
    intro h0
    rw [h0] at hblen'
    simp at hblen'
  have hstrip : pyStrip (pyLower a ++ 32 :: pyLower b) = pyLower a ++ 32 :: pyLower b := by
    apply pyStrip_eq_self
    · intro c hc
      cases a with
      | nil => exact absurd rfl ha
      | cons a0 t =>
        have : (pyLower (a0 :: t) ++ 32 :: pyLower b).head? = some (lowerCp a0) := rfl
        rw [this] at hc
        cases hc
        rw [isSpaceCp_lowerCp]
        exact hhead a0 rfl
    · intro c hc
      rw [List.getLast?_append_of_ne_nil _ (by simp)] at hc
      have h2 : (32 :: pyLower b).getLast? = (pyLower b).getLast? := by
        rw [show (32 :: pyLower b) = [32] ++ pyLower b from rfl,
          List.getLast?_append_of_ne_nil _ hbne]
      rw [h2, getLast?_pyLower] at hc
      cases hgb : b.getLast? with
      | none => rw [hgb] at hc; cases hc
      | some d =>
        rw [hgb] at hc
        simp only [Option.map_some'] at hc
        cases hc
        rw [isSpaceCp_lowerCp]
        exact hlast d hgb
  unfold _normalize_word
  rw [hlow, hstrip]
  unfold nwRules
  split
  · exact ⟨(pyLower b).take ((pyLower b).length - 3) ++ pystr "y", by
      rw [take_append_cons _ _ 3 (by omega)]
      simp⟩
  · split
    · exact ⟨(pyLower b).take ((pyLower b).length - 2), by
        rw [take_append_cons _ _ 2 (by omega)]⟩
    · split
      · exact ⟨(pyLower b).take ((pyLower b).length - 2), by
          rw [take_append_cons _ _ 2 (by omega)]⟩
      · split
        · exact ⟨(pyLower b).take ((pyLower b).length - 2), by
            rw [take_append_cons _ _ 2 (by omega)]⟩
        · split
          · exact ⟨(pyLower b).take ((pyLower b).length - 1), by
              rw [take_append_cons _ _ 1 (by omega)]⟩
          · exact ⟨pyLower b, rfl⟩

/-- C10 witness: the general shape applied at `a = "apples"`, `b = "basket"`,
matching the concrete `"Apples Basket"` example. -/
theorem substr_tier_whole_title_normalization_witness :
    ∃ b', _normalize_word (pystr "apples" ++ 32 :: pystr "basket") =
      pyLower (pystr "apples") ++ 32 :: b' :=
  substr_tier_whole_title_normalization.2.1 (pystr "apples") (pystr "basket")
    (by decide) (by decide) (by decide) (by decide)
